import Mathlib

/-!
Shallow embedding of `src/maxdefense.hh` (0/1 knapsack over armor items).

Modelling conventions:
* `double` defense values are modelled as `ℚ`; `int`/`size_t` costs as `ℕ`
  (the `ArmorItem` constructor asserts a positive cost).
* The C++ comparison `FilteredArmor->size() < total_size` converts the `int`
  argument `total_size` to `size_t`; this conversion is modelled as
  `(total_size % 2^64).toNat`.
* The exhaustive solver's mask enumeration is modelled with natural-number
  masks and `Nat.testBit`, matching `index & (1 << j)`.
-/

namespace MaxDefense

structure ArmorItem where
  description : String
  cost : Nat
  defense : ℚ
  deriving Repr, DecidableEq

/-- Default element used to model `std::vector::at` access that is always
in range in the source. -/
def dfltItem : ArmorItem := ⟨"default", 1, 0⟩

/-- `sum_armor_vector`, cost component (`total_cost` output parameter). -/
def total_cost (armors : List ArmorItem) : Nat :=
  (armors.map ArmorItem.cost).sum

/-- `sum_armor_vector`, defense component (`total_defense` output parameter). -/
def total_defense (armors : List ArmorItem) : ℚ :=
  (armors.map ArmorItem.defense).sum

/-- The C++ `int → size_t` conversion applied to `total_size` in
`FilteredArmor->size() < total_size`. -/
def sizeTLimit (total_size : Int) : Nat :=
  (total_size % (2 ^ 64 : Int)).toNat

/-- Loop body of `filter_armor_vector`: scan `source`, accumulating into
`acc` (the `FilteredArmor` vector), with the two nested `if`s of the source. -/
def filterGo (min_defense max_defense : ℚ) (limit : Nat) :
    List ArmorItem → List ArmorItem → List ArmorItem
  | acc, [] => acc
  | acc, a :: rest =>
    if 0 < a.defense ∧ acc.length < limit then
      if min_defense < a.defense ∧ a.defense ≤ max_defense then
        filterGo min_defense max_defense limit (acc ++ [a]) rest
      else
        filterGo min_defense max_defense limit acc rest
    else
      filterGo min_defense max_defense limit acc rest

/-- `filter_armor_vector(source, min_defense, max_defense, total_size)`. -/
def filter_armor_vector (source : List ArmorItem)
    (min_defense max_defense : ℚ) (total_size : Int) : List ArmorItem :=
  filterGo min_defense max_defense (sizeTLimit total_size) [] source

/-- The helper `double max(double a, double b)` of the source:
`(a >= b) ? a : b`. -/
def maxD (a b : ℚ) : ℚ :=
  if a ≥ b then a else b

/-- The DP table of `dynamic_max_defense`. `dpTable items i j` is `table[i][j]`
after the fill loops: row `0` and column `0` stay `0`; for `i ≥ 1`, `j ≥ 1`
the source computes
`if (j - armors.at(i-1)->cost() > 0) table[i][j] = max(table[i-1][j], table[i-1][j-c]+v); else table[i][j] = table[i-1][j];`
(the `-999999` initial values are all overwritten by this loop). -/
def dpTable (items : List ArmorItem) : Nat → Nat → ℚ
  | 0, _ => 0
  | i + 1, j =>
    if j = 0 then 0
    else
      if (items.getD i dfltItem).cost < j then
        maxD (dpTable items i j)
          (dpTable items i (j - (items.getD i dfltItem).cost) +
            (items.getD i dfltItem).defense)
      else
        dpTable items i j

/-- The backtracking loop of `dynamic_max_defense`: from row `i` and column
`horz`, push `armors.at(i-1)` iff `table[i][horz] != 0` and
`table[i][horz] != table[i-1][horz]`, moving `horz` left by the item's cost. -/
def reconstruct (items : List ArmorItem) : Nat → Nat → List ArmorItem
  | 0, _ => []
  | i + 1, horz =>
    if dpTable items (i + 1) horz ≠ 0 ∧
        dpTable items (i + 1) horz ≠ dpTable items i horz then
      items.getD i dfltItem ::
        reconstruct items i (horz - (items.getD i dfltItem).cost)
    else
      reconstruct items i horz

/-- `dynamic_max_defense(armors, total_cost)`. -/
def dynamic_max_defense (armors : List ArmorItem) (budget : Nat) :
    List ArmorItem :=
  reconstruct armors armors.length budget

/-- The candidate subset of a mask: item `j` is included iff bit `j` of the
mask is set (`index & (1 << j)`), pushed in increasing `j` order. -/
def subsetOfMask (items : List ArmorItem) (mask : Nat) : List ArmorItem :=
  ((List.range items.length).filter (fun j => mask.testBit j)).map
    (fun j => items.getD j dfltItem)

/-- Loop body of `exhaustive_max_defense`: replace the best pair
`(bestset, bestdefense)` iff `bestdefense < cdefense && budget <= total_cost`. -/
def exhStep (budget : ℚ) (items : List ArmorItem)
    (best : List ArmorItem × ℚ) (index : Nat) : List ArmorItem × ℚ :=
  if best.2 < total_defense (subsetOfMask items index) ∧
      (total_cost (subsetOfMask items index) : ℚ) ≤ budget then
    (subsetOfMask items index, total_defense (subsetOfMask items index))
  else
    best

/-- `exhaustive_max_defense(armors, total_cost)`: fold the replacement rule
over masks `0 .. 2^n - 1` starting from the empty best set. -/
def exhaustive_max_defense (armors : List ArmorItem) (budget : ℚ) :
    List ArmorItem :=
  ((List.range (2 ^ armors.length)).foldl (exhStep budget armors) ([], 0)).1

/-- The evolution of `bestdefense` alone through one loop iteration of
`exhaustive_max_defense` (used to reason about the achieved value). -/
def defStep (budget : ℚ) (items : List ArmorItem) (d : ℚ) (index : Nat) :
    ℚ :=
  if d < total_defense (subsetOfMask items index) ∧
      (total_cost (subsetOfMask items index) : ℚ) ≤ budget then
    total_defense (subsetOfMask items index)
  else d

/-- The predicate an item must satisfy to be pushed by `filter_armor_vector`
(both nested `if`s combined, size cap aside). -/
def armorPred (min_defense max_defense : ℚ) (a : ArmorItem) : Bool :=
  decide (0 < a.defense) && decide (min_defense < a.defense) &&
    decide (a.defense ≤ max_defense)

/-- A catalog with one item of cost 3 and defense 4. -/
def cex1 : List ArmorItem := [⟨"a", 3, 4⟩]

/-- The spec's scenario catalog: helmet (3, 4), shield (4, 5), boots (2, 3). -/
def catalog3 : List ArmorItem :=
  [⟨"helmet", 3, 4⟩, ⟨"shield", 4, 5⟩, ⟨"boots", 2, 3⟩]

/-- A two-item catalog used as a generic concrete input. -/
def catalog2 : List ArmorItem := [⟨"x", 1, 2⟩, ⟨"y", 1, -1⟩]

end MaxDefense

namespace MaxDefense

/-! ### Filter lemmas -/

/-- One step of the scan characterized: `filterGo` appends to `acc` the
matching items of `rest`, truncated to the remaining room under the cap. -/
theorem filterGo_eq (min_defense max_defense : ℚ) (limit : Nat) :
    ∀ (rest acc : List ArmorItem),
      filterGo min_defense max_defense limit acc rest =
        acc ++ (rest.filter (armorPred min_defense max_defense)).take
          (limit - acc.length) := by
  intro rest
  induction rest with
  | nil => intro acc; simp [filterGo]
  | cons a rest ih =>
    intro acc
    by_cases hd : 0 < a.defense
    · by_cases hlen : acc.length < limit
      · by_cases hr : min_defense < a.defense ∧ a.defense ≤ max_defense
        · have hp : armorPred min_defense max_defense a = true := by
            simp [armorPred, hd, hr.1, hr.2]
          rw [filterGo, if_pos ⟨hd, hlen⟩, if_pos hr, ih (acc ++ [a])]
          rw [List.filter_cons, if_pos hp]
          have harith : limit - acc.length = (limit - (acc.length + 1)) + 1 := by
            omega
          rw [harith, List.take_succ_cons]
          simp
        · have hp : armorPred min_defense max_defense a = false := by
            simp only [armorPred, Bool.and_eq_false_iff, decide_eq_false_iff_not]
            rcases Decidable.not_and_iff_or_not.mp hr with h | h
            · exact Or.inl (Or.inr h)
            · exact Or.inr h
          rw [filterGo, if_pos ⟨hd, hlen⟩, if_neg hr, ih acc]
          rw [List.filter_cons, if_neg (by simp [hp])]
      · have h0 : limit - acc.length = 0 := by omega
        rw [filterGo, if_neg (fun h => hlen h.2), ih acc, h0]
        rw [List.filter_cons]
        by_cases hp : armorPred min_defense max_defense a = true
        · rw [if_pos hp]
          simp
        · rw [if_neg hp]
    · have hp : armorPred min_defense max_defense a = false := by
        simp [armorPred, hd]
      rw [filterGo, if_neg (fun h => hd h.1), ih acc]
      rw [List.filter_cons, if_neg (by simp [hp])]

/-- `filter_armor_vector` keeps the first `sizeTLimit total_size` items
of `source` that pass both `if` tests, in order. -/
theorem filter_armor_vector_eq (source : List ArmorItem)
    (min_defense max_defense : ℚ) (total_size : Int) :
    filter_armor_vector source min_defense max_defense total_size =
      (source.filter (armorPred min_defense max_defense)).take
        (sizeTLimit total_size) := by
  rw [filter_armor_vector, filterGo_eq]
  simp

/-! ### DP table lemmas -/

/-- The source's `max(double,double)` helper agrees with `max` on `ℚ`. -/
theorem maxD_eq_max (a b : ℚ) : maxD a b = max a b := by
  unfold maxD
  rcases le_or_lt b a with h | h
  · rw [if_pos h, max_eq_left h]
  · rw [if_neg (not_le.mpr h), max_eq_right h.le]

/-- Unfolding equation for a successor row of the table. -/
theorem dpTable_succ (items : List ArmorItem) (i j : Nat) :
    dpTable items (i + 1) j =
      if j = 0 then 0
      else
        if (items.getD i dfltItem).cost < j then
          maxD (dpTable items i j)
            (dpTable items i (j - (items.getD i dfltItem).cost) +
              (items.getD i dfltItem).defense)
        else
          dpTable items i j := rfl

/-- Unfolding equation for a successor step of the backtracking loop. -/
theorem reconstruct_succ (items : List ArmorItem) (i horz : Nat) :
    reconstruct items (i + 1) horz =
      if dpTable items (i + 1) horz ≠ 0 ∧
          dpTable items (i + 1) horz ≠ dpTable items i horz then
        items.getD i dfltItem ::
          reconstruct items i (horz - (items.getD i dfltItem).cost)
      else
        reconstruct items i horz := rfl

/-- Column 0 of the table stays at its initial value 0. -/
theorem dpTable_col_zero (items : List ArmorItem) (i : Nat) :
    dpTable items i 0 = 0 := by
  cases i with
  | zero => rfl
  | succ i => simp [dpTable]

/-- Every table entry is non-negative (row 0 is zero and each `max`
keeps the entry above). -/
theorem dpTable_nonneg (items : List ArmorItem) (i j : Nat) :
    0 ≤ dpTable items i j := by
  induction i generalizing j with
  | zero => exact le_refl 0
  | succ i ih =>
    rw [dpTable_succ]
    by_cases h0 : j = 0
    · rw [if_pos h0]
    · rw [if_neg h0]
      by_cases hc : (items.getD i dfltItem).cost < j
      · rw [if_pos hc, maxD_eq_max]
        exact le_trans (ih j) (le_max_left _ _)
      · rw [if_neg hc]
        exact ih j

/-- Table entries never decrease when one more item row is added. -/
theorem dpTable_le_succ (items : List ArmorItem) (i j : Nat) :
    dpTable items i j ≤ dpTable items (i + 1) j := by
  rw [dpTable_succ]
  by_cases h0 : j = 0
  · rw [if_pos h0, h0, dpTable_col_zero]
  · rw [if_neg h0]
    by_cases hc : (items.getD i dfltItem).cost < j
    · rw [if_pos hc, maxD_eq_max]
      exact le_max_left _ _
    · rw [if_neg hc]

/-- Table entries are monotone in the budget column. -/
theorem dpTable_mono_j (items : List ArmorItem) (i : Nat) :
    ∀ j1 j2 : Nat, j1 ≤ j2 → dpTable items i j1 ≤ dpTable items i j2 := by
  induction i with
  | zero => intro j1 j2 _; exact le_refl 0
  | succ i ih =>
    intro j1 j2 hj
    by_cases h1 : j1 = 0
    · rw [h1, dpTable_col_zero]
      exact dpTable_nonneg items (i + 1) j2
    · have h2 : j2 ≠ 0 := by omega
      rw [dpTable_succ, if_neg h1]
      conv_rhs => rw [dpTable_succ, if_neg h2]
      by_cases hc : (items.getD i dfltItem).cost < j1
      · have hc2 : (items.getD i dfltItem).cost < j2 := lt_of_lt_of_le hc hj
        rw [if_pos hc, if_pos hc2, maxD_eq_max, maxD_eq_max]
        apply max_le_max (ih j1 j2 hj)
        exact add_le_add_right (ih _ _ (Nat.sub_le_sub_right hj _)) _
      · rw [if_neg hc]
        calc dpTable items i j1 ≤ dpTable items i j2 := ih j1 j2 hj
          _ ≤ _ := by
            by_cases hc2 : (items.getD i dfltItem).cost < j2
            · rw [if_pos hc2, maxD_eq_max]
              exact le_max_left _ _
            · rw [if_neg hc2]

/-- If `maxD a b` is not its first argument, it is its second. -/
theorem maxD_ne_left (a b : ℚ) (h : maxD a b ≠ a) : maxD a b = b := by
  unfold maxD at h ⊢
  by_cases hab : a ≥ b
  · exact absurd (if_pos hab) h
  · exact if_neg hab

/-- When row `i+1` differs from row `i` at column `horz`, the item fits
strictly (`cost < horz`) and the entry is the diagonal value plus the
item's defense. -/
theorem dp_take_facts (items : List ArmorItem) (i horz : Nat)
    (hne : dpTable items (i + 1) horz ≠ dpTable items i horz) :
    horz ≠ 0 ∧ (items.getD i dfltItem).cost < horz ∧
      dpTable items (i + 1) horz =
        dpTable items i (horz - (items.getD i dfltItem).cost) +
          (items.getD i dfltItem).defense := by
  by_cases h0 : horz = 0
  · exact absurd (by rw [h0, dpTable_col_zero, dpTable_col_zero]) hne
  · by_cases hc : (items.getD i dfltItem).cost < horz
    · refine ⟨h0, hc, ?_⟩
      have hform : dpTable items (i + 1) horz =
          maxD (dpTable items i horz)
            (dpTable items i (horz - (items.getD i dfltItem).cost) +
              (items.getD i dfltItem).defense) := by
        rw [dpTable_succ, if_neg h0, if_pos hc]
      rw [hform] at hne ⊢
      exact maxD_ne_left _ _ hne
    · exact absurd (by rw [dpTable_succ, if_neg h0, if_neg hc]) hne

/-- When row `i+1` agrees with row `i` at `horz`, the backtracking `if` is
not taken: its first conjunct is implied by the second because all entries
are non-negative and monotone in `i`. -/
theorem reconstruct_not_taken (items : List ArmorItem) (i horz : Nat)
    (heq : dpTable items (i + 1) horz = dpTable items i horz) :
    reconstruct items (i + 1) horz = reconstruct items i horz := by
  rw [reconstruct_succ]
  exact if_neg (fun hh => hh.2 heq)

/-- When the rows differ, the backtracking `if` is taken (the entry cannot
be 0, since the row above is sandwiched between 0 and it). -/
theorem reconstruct_taken (items : List ArmorItem) (i horz : Nat)
    (hne : dpTable items (i + 1) horz ≠ dpTable items i horz) :
    reconstruct items (i + 1) horz =
      items.getD i dfltItem ::
        reconstruct items i (horz - (items.getD i dfltItem).cost) := by
  have hne0 : dpTable items (i + 1) horz ≠ 0 := by
    intro hz
    apply hne
    have hlo := dpTable_nonneg items i horz
    have hhi := dpTable_le_succ items i horz
    rw [hz] at hhi ⊢
    exact le_antisymm hlo hhi
  rw [reconstruct_succ]
  exact if_pos ⟨hne0, hne⟩

/-- `total_defense` of a cons. -/
theorem total_defense_cons (a : ArmorItem) (l : List ArmorItem) :
    total_defense (a :: l) = a.defense + total_defense l := by
  simp [total_defense]

/-- `total_cost` of a cons. -/
theorem total_cost_cons (a : ArmorItem) (l : List ArmorItem) :
    total_cost (a :: l) = a.cost + total_cost l := by
  simp [total_cost]

/-- The defense of the reconstructed subset equals the table entry the
backtracking starts from (telescoping the recurrence). -/
theorem reconstruct_defense (items : List ArmorItem) :
    ∀ (i horz : Nat),
      total_defense (reconstruct items i horz) = dpTable items i horz := by
  intro i
  induction i with
  | zero => intro horz; simp [reconstruct, total_defense, dpTable]
  | succ i ih =>
    intro horz
    by_cases hne : dpTable items (i + 1) horz = dpTable items i horz
    · rw [reconstruct_not_taken items i horz hne, ih, hne]
    · obtain ⟨_, _, hform⟩ := dp_take_facts items i horz hne
      rw [reconstruct_taken items i horz hne, total_defense_cons, ih, hform]
      ring

/-- The cost of the reconstructed subset never exceeds the starting
column (each taken item strictly fits in the remaining budget). -/
theorem reconstruct_cost (items : List ArmorItem) :
    ∀ (i horz : Nat), total_cost (reconstruct items i horz) ≤ horz := by
  intro i
  induction i with
  | zero => intro horz; simp [reconstruct, total_cost]
  | succ i ih =>
    intro horz
    by_cases hne : dpTable items (i + 1) horz = dpTable items i horz
    · rw [reconstruct_not_taken items i horz hne]
      exact ih horz
    · obtain ⟨_, hc, _⟩ := dp_take_facts items i horz hne
      rw [reconstruct_taken items i horz hne, total_cost_cons]
      have := ih (horz - (items.getD i dfltItem).cost)
      omega

/-- The achieved defense of the DP solver is the final table entry
`T[n][budget]`. -/
theorem dynamic_defense_eq_table (items : List ArmorItem) (budget : Nat) :
    total_defense (dynamic_max_defense items budget) =
      dpTable items items.length budget :=
  reconstruct_defense items items.length budget

/-! ### Exhaustive solver lemmas -/

/-- A left fold preserves any predicate its step preserves on members of
the list. -/
theorem foldl_inv {α β : Type} (P : α → Prop) (f : α → β → α)
    (l : List β) :
    ∀ s : α, (∀ s x, x ∈ l → P s → P (f s x)) → P s → P (l.foldl f s) := by
  induction l with
  | nil => intro s _ hs; exact hs
  | cons x l ih =>
    intro s hstep hs
    exact ih (f s x)
      (fun s y hy h => hstep s y (List.mem_cons_of_mem _ hy) h)
      (hstep s x (List.mem_cons_self _ _) hs)

/-- Mask 0 selects the empty subset. -/
theorem subsetOfMask_zero (items : List ArmorItem) :
    subsetOfMask items 0 = [] := by
  simp [subsetOfMask, Nat.zero_testBit]

/-- Loop invariant: `bestdefense` is always the total defense of
`bestset`. -/
theorem exh_best_defense (items : List ArmorItem) (budget : ℚ)
    (l : List Nat) :
    (l.foldl (exhStep budget items) ([], 0)).2 =
      total_defense ((l.foldl (exhStep budget items) ([], 0)).1) := by
  apply foldl_inv (fun s : List ArmorItem × ℚ => s.2 = total_defense s.1)
  · intro s x _ hs
    unfold exhStep
    by_cases h : s.2 < total_defense (subsetOfMask items x) ∧
        (total_cost (subsetOfMask items x) : ℚ) ≤ budget
    · rw [if_pos h]
    · rw [if_neg h]; exact hs
  · simp [total_defense]

/-- The defense component of `exhStep` depends only on the defense
component of the state. -/
theorem exhStep_snd (budget : ℚ) (items : List ArmorItem)
    (s : List ArmorItem × ℚ) (index : Nat) :
    (exhStep budget items s index).2 = defStep budget items s.2 index := by
  unfold exhStep defStep
  by_cases h : s.2 < total_defense (subsetOfMask items index) ∧
      (total_cost (subsetOfMask items index) : ℚ) ≤ budget
  · rw [if_pos h, if_pos h]
  · rw [if_neg h, if_neg h]

/-- The defense component of the whole fold is a fold of `defStep`. -/
theorem foldl_exhStep_snd (budget : ℚ) (items : List ArmorItem) :
    ∀ (l : List Nat) (s : List ArmorItem × ℚ),
      (l.foldl (exhStep budget items) s).2 =
        l.foldl (defStep budget items) s.2 := by
  intro l
  induction l with
  | nil => intro s; rfl
  | cons x l ih =>
    intro s
    rw [List.foldl_cons, List.foldl_cons, ih, exhStep_snd]

/-- `defStep` never decreases the running best defense. -/
theorem defStep_le (budget : ℚ) (items : List ArmorItem) (d : ℚ)
    (index : Nat) : d ≤ defStep budget items d index := by
  unfold defStep
  by_cases h : d < total_defense (subsetOfMask items index) ∧
      (total_cost (subsetOfMask items index) : ℚ) ≤ budget
  · rw [if_pos h]; exact le_of_lt h.1
  · rw [if_neg h]

/-- Folding `defStep` is monotone in both the budget and the starting
value. -/
theorem foldl_defStep_mono (items : List ArmorItem) :
    ∀ (l : List Nat) (b1 b2 d1 d2 : ℚ), b1 ≤ b2 → d1 ≤ d2 →
      l.foldl (defStep b1 items) d1 ≤ l.foldl (defStep b2 items) d2 := by
  intro l
  induction l with
  | nil => intro b1 b2 d1 d2 _ hd; exact hd
  | cons x l ih =>
    intro b1 b2 d1 d2 hb hd
    rw [List.foldl_cons, List.foldl_cons]
    apply ih b1 b2 _ _ hb
    by_cases h1 : d1 < total_defense (subsetOfMask items x) ∧
        (total_cost (subsetOfMask items x) : ℚ) ≤ b1
    · rw [defStep, if_pos h1]
      by_cases h2 : d2 < total_defense (subsetOfMask items x)
      · rw [defStep, if_pos ⟨h2, le_trans h1.2 hb⟩]
      · rw [defStep, if_neg (fun hh => h2 hh.1)]
        exact not_lt.mp h2
    · rw [defStep, if_neg h1]
      exact le_trans hd (defStep_le b2 items d2 x)

/-- The achieved defense of the exhaustive solver, as a fold of
`defStep` starting from 0. -/
theorem exhaustive_defense_eq_fold (items : List ArmorItem) (budget : ℚ) :
    total_defense (exhaustive_max_defense items budget) =
      (List.range (2 ^ items.length)).foldl (defStep budget items) 0 := by
  unfold exhaustive_max_defense
  rw [← exh_best_defense items budget]
  exact foldl_exhStep_snd budget items _ _

/-- The best set's cost stays within a non-negative budget. -/
theorem exh_cost_le (items : List ArmorItem) (budget : ℚ)
    (hb : 0 ≤ budget) :
    (total_cost (exhaustive_max_defense items budget) : ℚ) ≤ budget := by
  unfold exhaustive_max_defense
  apply foldl_inv
    (fun s : List ArmorItem × ℚ => (total_cost s.1 : ℚ) ≤ budget)
  · intro s x _ hs
    unfold exhStep
    by_cases h : s.2 < total_defense (subsetOfMask items x) ∧
        (total_cost (subsetOfMask items x) : ℚ) ≤ budget
    · rw [if_pos h]; exact h.2
    · rw [if_neg h]; exact hs
  · simpa [total_cost] using hb

/-- A nonzero mask below `2^n` selects a nonempty subset, which has
positive cost when all item costs are positive. -/
theorem mask_nonzero_cost_pos (items : List ArmorItem)
    (hpos : ∀ a ∈ items, 0 < a.cost) (x : Nat) (hx0 : x ≠ 0)
    (hxlt : x < 2 ^ items.length) :
    0 < total_cost (subsetOfMask items x) := by
  obtain ⟨j, hj, -⟩ := Nat.exists_most_significant_bit hx0
  have hjlt : j < items.length := by
    by_contra hge
    have h1 : (2 : Nat) ^ items.length ≤ 2 ^ j :=
      Nat.pow_le_pow_right (by omega) (by omega)
    have h2 : (2 : Nat) ^ j ≤ x := Nat.testBit_implies_ge hj
    omega
  have hmemr : j ∈ (List.range items.length).filter
      (fun j => x.testBit j) :=
    List.mem_filter.mpr ⟨List.mem_range.mpr hjlt, by simpa using hj⟩
  have hmem : items.getD j dfltItem ∈ subsetOfMask items x :=
    List.mem_map_of_mem _ hmemr
  have hin : items.getD j dfltItem ∈ items := by
    rw [List.getD_eq_getElem?_getD, List.getElem?_eq_getElem hjlt]
    exact List.getElem_mem hjlt
  have hcost : 0 < (items.getD j dfltItem).cost := hpos _ hin
  have hle : (items.getD j dfltItem).cost ≤ total_cost (subsetOfMask items x) :=
    List.single_le_sum (fun b _ => Nat.zero_le b) _
      (List.mem_map_of_mem _ hmem)
  omega

/-- C1: the claim says `dynamic_max_defense` and `exhaustive_max_defense`
always agree on total defense for catalogs of fewer than 64 positive-cost
items. On the one-item catalog (cost 3, defense 4) with budget 3, the DP
solver returns total defense 0 while the exhaustive solver returns 4: the
DP fill condition `j - cost > 0` wrongly excludes spending the whole
remaining budget, contradicting the solver's own documented purpose. -/
theorem c1_dp_diverges_from_exhaustive :
    total_defense (dynamic_max_defense cex1 3) = 0 ∧
      total_defense (exhaustive_max_defense cex1 3) = 4 := by
  with_unfolding_all decide

/-- C2: the claim states the knapsack recurrence with the guard `c ≤ j`.
At the one-item catalog (cost 3, defense 4), row 1, column 3 we have
`c = 3 ≤ 3 = j`, so the claimed recurrence yields
`max(T[0][3], T[0][0] + 4) = 4`, but the code's table holds 0 because its
guard is the strict `j - c > 0`. -/
theorem c2_recurrence_violated_at_c_eq_j :
    dpTable cex1 1 3 = 0 ∧
      maxD (dpTable cex1 0 3) (dpTable cex1 0 (3 - 3) + 4) = 4 ∧
      (3 : Nat) ≤ 3 := by
  with_unfolding_all decide

/-- C3: on the spec scenario (helmet 3/4, shield 4/5, boots 2/3, budget 5)
the claim says both solvers achieve total defense 7. The exhaustive solver
does, but the DP solver returns only 5 (shield alone): taking boots at
residual budget 5 leaves exactly 3 for the helmet, which the strict guard
`j - c > 0` rejects. -/
theorem c3_scenario_dp_returns_5_not_7 :
    total_defense (dynamic_max_defense catalog3 5) = 5 ∧
      total_defense (exhaustive_max_defense catalog3 5) = 7 := by
  with_unfolding_all decide

/-- C5 counterexample: the claim's inclusion rule has no positivity
requirement, so it demands that the item with defense −1 be included for
bounds (−2, 0] and limit 5; the code returns the empty list because of its
explicit `source[i]->defense() > 0` test. -/
theorem c5_counterexample_negative_defense :
    filter_armor_vector [⟨"x", 1, -1⟩] (-2) 0 5 = [] ∧
      (-2 : ℚ) < -1 ∧ (-1 : ℚ) ≤ 0 ∧ (0 : Nat) < 5 := by
  with_unfolding_all decide

/-- C5 (amended): for a non-negative limit in `int` range,
`filter_armor_vector` includes an item iff its defense is strictly
positive, `min_defense < defense ≤ max_defense`, and fewer than `limit`
items were already included — that is, it returns the first `limit`
matching items in order; consequently the result never exceeds `limit`
items and every returned item's defense lies in
`(min_defense, max_defense]`. -/
theorem c5_filter_contract (source : List ArmorItem)
    (min_defense max_defense : ℚ) (total_size : Int)
    (h0 : 0 ≤ total_size) (h1 : total_size < 2 ^ 31) :
    filter_armor_vector source min_defense max_defense total_size =
        (source.filter (armorPred min_defense max_defense)).take
          total_size.toNat ∧
      (filter_armor_vector source min_defense max_defense
          total_size).length ≤ total_size.toNat ∧
      ∀ a ∈ filter_armor_vector source min_defense max_defense total_size,
        0 < a.defense ∧ min_defense < a.defense ∧
          a.defense ≤ max_defense := by
  have hmod : sizeTLimit total_size = total_size.toNat := by
    unfold sizeTLimit
    rw [Int.emod_eq_of_lt h0 (by omega)]
  have heq : filter_armor_vector source min_defense max_defense total_size =
      (source.filter (armorPred min_defense max_defense)).take
        total_size.toNat := by
    rw [filter_armor_vector_eq, hmod]
  refine ⟨heq, ?_, ?_⟩
  · rw [heq]
    exact List.length_take_le _ _
  · intro a ha
    rw [heq] at ha
    have hmem := List.of_mem_filter (List.take_subset _ _ ha)
    simpa [armorPred, and_assoc] using hmem

/-- C6: `filter_armor_vector` is idempotent — filtering an
already-filtered catalog with the same bounds and limit changes
nothing. Holds for every limit, including negative ones. -/
theorem c6_filter_idempotent (source : List ArmorItem)
    (min_defense max_defense : ℚ) (total_size : Int) :
    filter_armor_vector
        (filter_armor_vector source min_defense max_defense total_size)
        min_defense max_defense total_size =
      filter_armor_vector source min_defense max_defense total_size := by
  rw [filter_armor_vector_eq, filter_armor_vector_eq source]
  have hself :
      (((source.filter (armorPred min_defense max_defense)).take
          (sizeTLimit total_size)).filter
        (armorPred min_defense max_defense)) =
      ((source.filter (armorPred min_defense max_defense)).take
          (sizeTLimit total_size)) := by
    apply List.filter_eq_self.mpr
    intro a ha
    exact List.of_mem_filter (List.take_subset _ _ ha)
  rw [hself, List.take_take, min_self]

/-- C10: for a strictly negative limit, the `int → size_t` conversion in
`FilteredArmor->size() < total_size` makes the cap unreachable, so the
filter returns every item with strictly positive defense inside
`(min_defense, max_defense]`, in source order. -/
theorem c10_negative_limit_uncapped (source : List ArmorItem)
    (min_defense max_defense : ℚ) (total_size : Int)
    (h0 : -(2 ^ 31) ≤ total_size) (h1 : total_size < 0)
    (h2 : source.length ≤ 2 ^ 62) :
    filter_armor_vector source min_defense max_defense total_size =
      source.filter (armorPred min_defense max_defense) := by
  rw [filter_armor_vector_eq]
  apply List.take_of_length_le
  have hlen : (source.filter (armorPred min_defense max_defense)).length ≤
      2 ^ 62 := le_trans (List.length_filter_le _ _) h2
  have hmod : (total_size % (2 ^ 64 : Int)) = total_size + 2 ^ 64 := by
    omega
  unfold sizeTLimit
  rw [hmod]
  omega

/-- Prefix invariant of the exhaustive loop: after scanning masks
`0 .. k-1` the state is the candidate of some mask `m₀`, feasible, best
among the feasible masks scanned so far, and strictly better than every
feasible mask below `m₀`. -/
theorem exh_prefix_inv (items : List ArmorItem) (budget : ℚ)
    (hb : 0 ≤ budget) :
    ∀ k : Nat, ∃ m₀ < max k 1,
      ((List.range k).foldl (exhStep budget items) ([], 0)).1 =
          subsetOfMask items m₀ ∧
        ((List.range k).foldl (exhStep budget items) ([], 0)).2 =
          total_defense (subsetOfMask items m₀) ∧
        (total_cost (subsetOfMask items m₀) : ℚ) ≤ budget ∧
        (∀ m < k, (total_cost (subsetOfMask items m) : ℚ) ≤ budget →
          total_defense (subsetOfMask items m) ≤
            total_defense (subsetOfMask items m₀)) ∧
        (∀ m < m₀, (total_cost (subsetOfMask items m) : ℚ) ≤ budget →
          total_defense (subsetOfMask items m) <
            total_defense (subsetOfMask items m₀)) := by
  intro k
  induction k with
  | zero =>
    refine ⟨0, by omega, ?_, ?_, ?_, ?_, ?_⟩
    · rw [List.range_zero, List.foldl_nil, subsetOfMask_zero]
    · rw [List.range_zero, List.foldl_nil, subsetOfMask_zero]
      simp [total_defense]
    · rw [subsetOfMask_zero]
      simpa [total_cost] using hb
    · intro m hm
      exact absurd hm (Nat.not_lt_zero m)
    · intro m hm
      exact absurd hm (Nat.not_lt_zero m)
  | succ k ih =>
    obtain ⟨m₀, hm₀lt, h1, h2, hfeas, hmax, hstrict⟩ := ih
    rw [List.range_succ, List.foldl_append, List.foldl_cons, List.foldl_nil]
    by_cases hc :
        ((List.range k).foldl (exhStep budget items) ([], 0)).2 <
            total_defense (subsetOfMask items k) ∧
          (total_cost (subsetOfMask items k) : ℚ) ≤ budget
    · have hbeat : total_defense (subsetOfMask items m₀) <
          total_defense (subsetOfMask items k) := by
        rw [← h2]; exact hc.1
      refine ⟨k, lt_of_lt_of_le (Nat.lt_succ_self k) (le_max_left _ _),
        ?_, ?_, hc.2, ?_, ?_⟩
      · rw [exhStep, if_pos hc]
      · rw [exhStep, if_pos hc]
      · intro m hm hf
        rcases Nat.lt_succ_iff_lt_or_eq.mp hm with hlt | heq
        · exact le_of_lt (lt_of_le_of_lt (hmax m hlt hf) hbeat)
        · rw [heq]
      · intro m hm hf
        exact lt_of_le_of_lt (hmax m hm hf) hbeat
    · refine ⟨m₀,
        lt_of_lt_of_le hm₀lt
          (max_le_max (Nat.le_succ k) (le_refl 1)), ?_, ?_, hfeas, ?_, ?_⟩
      · rw [exhStep, if_neg hc]; exact h1
      · rw [exhStep, if_neg hc]; exact h2
      · intro m hm hf
        rcases Nat.lt_succ_iff_lt_or_eq.mp hm with hlt | heq
        · exact hmax m hlt hf
        · rw [heq]
          have hnlt : ¬ ((List.range k).foldl
              (exhStep budget items) ([], 0)).2 <
              total_defense (subsetOfMask items k) :=
            fun hlt2 => hc ⟨hlt2, heq ▸ hf⟩
          rw [h2] at hnlt
          exact not_lt.mp hnlt
      · exact hstrict

/-- C4: every solution stays within budget — the DP backtracking charges
each taken item's cost against the remaining column, and the exhaustive
replacement rule only installs candidates whose cost fits (the empty
initial best is feasible for any non-negative budget). -/
theorem c4_within_budget :
    (∀ (items : List ArmorItem) (budget : Nat),
        (∀ a ∈ items, 0 < a.cost) →
        total_cost (dynamic_max_defense items budget) ≤ budget) ∧
      ∀ (items : List ArmorItem) (budget : ℚ), items.length < 64 →
        (∀ a ∈ items, 0 < a.cost) → 0 ≤ budget →
        (total_cost (exhaustive_max_defense items budget) : ℚ) ≤ budget := by
  constructor
  · intro items budget _
    exact reconstruct_cost items items.length budget
  · intro items budget _ _ hb
    exact exh_cost_le items budget hb

/-- C4 witness at the scenario catalog and budget 5. -/
theorem c4_within_budget_witness :
    (∀ a ∈ catalog3, 0 < a.cost) ∧ catalog3.length < 64 ∧ (0 : ℚ) ≤ 5 ∧
      total_cost (dynamic_max_defense catalog3 5) ≤ 5 ∧
      (total_cost (exhaustive_max_defense catalog3 (5 : ℚ)) : ℚ) ≤ 5 :=
  ⟨by decide, by decide, by norm_num,
    c4_within_budget.1 catalog3 5 (by decide),
    c4_within_budget.2 catalog3 5 (by decide) (by decide) (by norm_num)⟩

/-- C7: for a fixed catalog the achieved total defense of each solver is
monotone non-decreasing in the budget. For the DP solver the achieved
defense equals `T[n][budget]`, which is monotone in the column; for the
exhaustive solver a larger budget only enlarges the set of candidates that
can replace the running best. -/
theorem c7_monotone_in_budget :
    (∀ (items : List ArmorItem) (b1 b2 : Nat), b1 ≤ b2 →
        total_defense (dynamic_max_defense items b1) ≤
          total_defense (dynamic_max_defense items b2)) ∧
      ∀ (items : List ArmorItem) (b1 b2 : ℚ), items.length < 64 →
        b1 ≤ b2 →
        total_defense (exhaustive_max_defense items b1) ≤
          total_defense (exhaustive_max_defense items b2) := by
  constructor
  · intro items b1 b2 hb
    rw [dynamic_defense_eq_table, dynamic_defense_eq_table]
    exact dpTable_mono_j items items.length b1 b2 hb
  · intro items b1 b2 _ hb
    rw [exhaustive_defense_eq_fold, exhaustive_defense_eq_fold]
    exact foldl_defStep_mono items _ b1 b2 0 0 hb (le_refl 0)

/-- C7 witness: budgets 3 ≤ 5 on the scenario catalog. -/
theorem c7_monotone_in_budget_witness :
    (3 : Nat) ≤ 5 ∧ catalog3.length < 64 ∧ (3 : ℚ) ≤ 5 ∧
      total_defense (dynamic_max_defense catalog3 3) ≤
        total_defense (dynamic_max_defense catalog3 5) ∧
      total_defense (exhaustive_max_defense catalog3 3) ≤
        total_defense (exhaustive_max_defense catalog3 5) :=
  ⟨by decide, by decide, by norm_num,
    c7_monotone_in_budget.1 catalog3 3 5 (by decide),
    c7_monotone_in_budget.2 catalog3 3 5 (by decide) (by norm_num)⟩

/-- C8: the exhaustive solver returns the candidate of some mask `m₀`
below `2^n` that is feasible, achieves the maximum defense among all
feasible masks, and strictly beats every feasible mask below `m₀` — i.e.
the lowest-mask optimum; mask 0 (the empty subset) when nothing feasible
beats defense 0. -/
theorem c8_exhaustive_lowest_mask (items : List ArmorItem) (budget : ℚ)
    (_hn : items.length < 64) (hb : 0 ≤ budget) :
    ∃ m₀ < 2 ^ items.length,
      exhaustive_max_defense items budget = subsetOfMask items m₀ ∧
        (total_cost (subsetOfMask items m₀) : ℚ) ≤ budget ∧
        (∀ m < 2 ^ items.length,
          (total_cost (subsetOfMask items m) : ℚ) ≤ budget →
          total_defense (subsetOfMask items m) ≤
            total_defense (subsetOfMask items m₀)) ∧
        ∀ m < m₀, (total_cost (subsetOfMask items m) : ℚ) ≤ budget →
          total_defense (subsetOfMask items m) <
            total_defense (subsetOfMask items m₀) := by
  obtain ⟨m₀, hm₀lt, h1, _, hfeas, hmax, hstrict⟩ :=
    exh_prefix_inv items budget hb (2 ^ items.length)
  have hpow : max (2 ^ items.length) 1 = 2 ^ items.length :=
    max_eq_left Nat.one_le_two_pow
  exact ⟨m₀, hpow ▸ hm₀lt, h1, hfeas, hmax, hstrict⟩

/-- C8 witness at the scenario catalog and budget 5. -/
theorem c8_exhaustive_lowest_mask_witness :
    catalog3.length < 64 ∧ (0 : ℚ) ≤ 5 ∧
      ∃ m₀ < 2 ^ catalog3.length,
        exhaustive_max_defense catalog3 5 = subsetOfMask catalog3 m₀ ∧
          (total_cost (subsetOfMask catalog3 m₀) : ℚ) ≤ 5 ∧
          (∀ m < 2 ^ catalog3.length,
            (total_cost (subsetOfMask catalog3 m) : ℚ) ≤ 5 →
            total_defense (subsetOfMask catalog3 m) ≤
              total_defense (subsetOfMask catalog3 m₀)) ∧
          ∀ m < m₀, (total_cost (subsetOfMask catalog3 m) : ℚ) ≤ 5 →
            total_defense (subsetOfMask catalog3 m) <
              total_defense (subsetOfMask catalog3 m₀) :=
  ⟨by decide, by norm_num,
    c8_exhaustive_lowest_mask catalog3 5 (by decide) (by norm_num)⟩

/-- Budget 0 forces the DP backtracking to take nothing (column 0 of the
table is identically 0). -/
theorem reconstruct_zero_budget (items : List ArmorItem) :
    ∀ i : Nat, reconstruct items i 0 = [] := by
  intro i
  induction i with
  | zero => rfl
  | succ i ih =>
    rw [reconstruct_succ, if_neg (fun hh => hh.1 (dpTable_col_zero items _))]
    exact ih

/-- C9: degenerate inputs are not errors — with budget 0 (and positive
item costs) and with the empty catalog, both solvers return the empty
solution, whose total defense is 0. -/
theorem c9_degenerate_inputs :
    (∀ items : List ArmorItem, (∀ a ∈ items, 0 < a.cost) →
        dynamic_max_defense items 0 = [] ∧
          exhaustive_max_defense items 0 = []) ∧
      (∀ budget : Nat, dynamic_max_defense [] budget = []) ∧
      (∀ budget : ℚ, 0 ≤ budget → exhaustive_max_defense [] budget = []) ∧
      total_defense ([] : List ArmorItem) = 0 := by
  refine ⟨?_, ?_, ?_, by simp [total_defense]⟩
  · intro items hpos
    refine ⟨reconstruct_zero_budget items items.length, ?_⟩
    unfold exhaustive_max_defense
    have hfold : (List.range (2 ^ items.length)).foldl
        (exhStep 0 items) ([], 0) = ([], 0) := by
      apply foldl_inv (fun s : List ArmorItem × ℚ => s = ([], 0))
      · intro s x hx hs
        rw [hs]
        unfold exhStep
        apply if_neg
        intro hcond
        by_cases hx0 : x = 0
        · rw [hx0, subsetOfMask_zero] at hcond
          simp [total_defense] at hcond
        · have hpos2 := mask_nonzero_cost_pos items hpos x hx0
            (List.mem_range.mp hx)
          have : (0 : ℚ) < (total_cost (subsetOfMask items x) : ℚ) := by
            exact_mod_cast hpos2
          linarith [hcond.2]
      · rfl
    rw [hfold]
  · intro budget
    exact reconstruct_zero_budget [] 0
  · intro budget _
    unfold exhaustive_max_defense
    have h1 : (2 : Nat) ^ ([] : List ArmorItem).length = 1 := rfl
    have h2 : List.range 1 = [0] := rfl
    rw [h1, h2, List.foldl_cons, List.foldl_nil]
    rw [exhStep, if_neg ?_]
    intro hcond
    rw [subsetOfMask_zero] at hcond
    simp [total_defense] at hcond

/-- C9 witness at the scenario catalog and budget 5. -/
theorem c9_degenerate_inputs_witness :
    (∀ a ∈ catalog3, 0 < a.cost) ∧ (0 : ℚ) ≤ 5 ∧
      dynamic_max_defense catalog3 0 = [] ∧
      exhaustive_max_defense catalog3 0 = [] ∧
      dynamic_max_defense [] 5 = [] ∧
      exhaustive_max_defense [] (5 : ℚ) = [] :=
  ⟨by decide, by norm_num,
    (c9_degenerate_inputs.1 catalog3 (by decide)).1,
    (c9_degenerate_inputs.1 catalog3 (by decide)).2,
    c9_degenerate_inputs.2.1 5,
    c9_degenerate_inputs.2.2.1 5 (by norm_num)⟩

/-- C5 witness: bounds (0, 3], limit 1, on a three-item catalog. -/
theorem c5_filter_contract_witness :
    (0 : Int) ≤ 1 ∧ (1 : Int) < 2 ^ 31 ∧
      filter_armor_vector [⟨"x", 1, 2⟩, ⟨"y", 1, -1⟩, ⟨"z", 1, 3⟩] 0 3 1 =
        (([⟨"x", 1, 2⟩, ⟨"y", 1, -1⟩, ⟨"z", 1, 3⟩] :
          List ArmorItem).filter (armorPred 0 3)).take (1 : Int).toNat :=
  ⟨by decide, by norm_num,
    (c5_filter_contract [⟨"x", 1, 2⟩, ⟨"y", 1, -1⟩, ⟨"z", 1, 3⟩] 0 3 1
      (by decide) (by norm_num)).1⟩

/-- C10 witness: limit −1 on a two-item catalog. -/
theorem c10_negative_limit_uncapped_witness :
    (-(2 ^ 31) : Int) ≤ -1 ∧ (-1 : Int) < 0 ∧
      catalog2.length ≤ 2 ^ 62 ∧
      filter_armor_vector catalog2 0 3 (-1) =
        catalog2.filter (armorPred 0 3) :=
  ⟨by norm_num, by norm_num, by norm_num [catalog2],
    c10_negative_limit_uncapped catalog2 0 3 (-1) (by norm_num)
      (by norm_num) (by norm_num [catalog2])⟩

end MaxDefense
